import Mathlib

/-!
Shallow embedding of the Task Management API (src/main.py): data model,
in-memory store, and request handlers, together with theorems checking the
natural-language specification against this embedding.

Modelling conventions:
- `datetime` values are modelled as `Nat` timestamps; only their ordering
  matters.  Seed-data datetimes (all in January 2025) are encoded as
  `day * 10000 + hour * 100 + minute`, which preserves their ordering.
- The nondeterministic inputs of the Python code (`uuid.uuid4()` for fresh
  ids, `datetime.now()` for clocks) are passed in as explicit parameters of
  the corresponding requests.
- A stored `Task` is modelled at runtime-value level: pydantic's
  `model_copy(update=...)` performs NO validation, so an update payload that
  explicitly supplies JSON `null` for `title`, `status` or `priority` makes
  the stored object hold `None` in a field whose declared type is not
  optional.  The fields `title`, `status` and `priority` are therefore
  `Option`-typed here even though the declared pydantic model requires them.
-/

namespace TaskAPI

/-- The four wire values of `class TaskStatus(str, Enum)` in src/main.py. -/
inductive TaskStatus
  | pending
  | in_progress
  | completed
  | cancelled
deriving DecidableEq

/-- The four wire values of `class TaskPriority(str, Enum)` in src/main.py. -/
inductive TaskPriority
  | low
  | medium
  | high
  | urgent
deriving DecidableEq

/-- The `.value` string of a `TaskStatus` member. -/
def statusValue : TaskStatus → String
  | TaskStatus.pending => "pending"
  | TaskStatus.in_progress => "in-progress"
  | TaskStatus.completed => "completed"
  | TaskStatus.cancelled => "cancelled"

/-- The `.value` string of a `TaskPriority` member. -/
def priorityValue : TaskPriority → String
  | TaskPriority.low => "low"
  | TaskPriority.medium => "medium"
  | TaskPriority.high => "high"
  | TaskPriority.urgent => "urgent"

/-- Iteration order of `for s in TaskStatus` (declaration order). -/
def allStatuses : List TaskStatus :=
  [TaskStatus.pending, TaskStatus.in_progress, TaskStatus.completed, TaskStatus.cancelled]

/-- Iteration order of `for p in TaskPriority` (declaration order). -/
def allPriorities : List TaskPriority :=
  [TaskPriority.low, TaskPriority.medium, TaskPriority.high, TaskPriority.urgent]

/-- Pydantic enum parsing of a wire string into a `TaskStatus`. -/
def parseStatus (s : String) : Option TaskStatus :=
  if s == "pending" then some TaskStatus.pending
  else if s == "in-progress" then some TaskStatus.in_progress
  else if s == "completed" then some TaskStatus.completed
  else if s == "cancelled" then some TaskStatus.cancelled
  else none

/-- Pydantic enum parsing of a wire string into a `TaskPriority`. -/
def parsePriority (s : String) : Option TaskPriority :=
  if s == "low" then some TaskPriority.low
  else if s == "medium" then some TaskPriority.medium
  else if s == "high" then some TaskPriority.high
  else if s == "urgent" then some TaskPriority.urgent
  else none

/--
Runtime value of a stored `Task` object (`class Task(BaseModel)` in
src/main.py).  The declared model has `title : str`, `status : TaskStatus`
and `priority : TaskPriority` as required fields, but because
`model_copy(update=...)` in `update_task` bypasses validation, the runtime
object can hold `None` in any of them; `Option` captures exactly the
runtime-possible values (`none` = Python `None`).
-/
structure Task where
  id : String
  title : Option String
  description : Option String
  status : Option TaskStatus
  priority : Option TaskPriority
  due_date : Option Nat
  created_at : Nat
  updated_at : Nat
deriving DecidableEq

/--
The JSON body of `POST /api/tasks`, before pydantic validation against
`class TaskCreate(BaseModel)`: `none` means the key is absent from the
payload, and `status`/`priority` are the raw wire strings.
-/
structure TaskCreatePayload where
  title : Option String
  description : Option String
  status : Option String
  priority : Option String
  due_date : Option Nat
deriving DecidableEq

/-- A pydantic-validated `TaskCreate` object (defaults applied). -/
structure TaskCreate where
  title : String
  description : Option String
  status : TaskStatus
  priority : TaskPriority
  due_date : Option Nat
deriving DecidableEq

/-- `title: str = Field(..., min_length=1, max_length=200)`. -/
def checkTitle (t : Option String) : Option String :=
  match t with
  | none => none
  | some s => if 1 ≤ s.length ∧ s.length ≤ 200 then some s else none

/-- `description: Optional[str] = Field(None, max_length=1000)`. -/
def checkDescription (d : Option String) : Option (Option String) :=
  match d with
  | none => some none
  | some s => if s.length ≤ 1000 then some (some s) else none

/-- `status: TaskStatus = Field(default=TaskStatus.PENDING)`. -/
def checkStatusField (s : Option String) : Option TaskStatus :=
  match s with
  | none => some TaskStatus.pending
  | some v => parseStatus v

/-- `priority: TaskPriority = Field(default=TaskPriority.MEDIUM)`. -/
def checkPriorityField (p : Option String) : Option TaskPriority :=
  match p with
  | none => some TaskPriority.medium
  | some v => parsePriority v

/--
Pydantic validation of a create payload against `TaskCreate`: `none` is a
422 validation error, `some c` is the validated object with defaults.
-/
def parseTaskCreate (p : TaskCreatePayload) : Option TaskCreate :=
  match checkTitle p.title, checkDescription p.description,
        checkStatusField p.status, checkPriorityField p.priority with
  | some t, some d, some s, some pr =>
      some { title := t, description := d, status := s, priority := pr, due_date := p.due_date }
  | _, _, _, _ => none

/--
`class TaskUpdate(BaseModel)` together with pydantic field-set tracking
(`model_dump(exclude_unset=True)`): the outer `Option` records whether the
key was present in the JSON body (`none` = key absent = unset), the inner
`Option` is the supplied value (`none` = explicit JSON `null`, which every
field of `TaskUpdate` accepts since each is declared `Optional`).
-/
structure TaskUpdate where
  title : Option (Option String)
  description : Option (Option String)
  status : Option (Option TaskStatus)
  priority : Option (Option TaskPriority)
  due_date : Option (Option Nat)
deriving DecidableEq

/--
Pydantic validation of a `TaskUpdate` body.  The length constraints on
`title` and `description` apply only when a string value is supplied;
an explicit `null` passes validation because the fields are `Optional`.
-/
def TaskUpdate.isValid (u : TaskUpdate) : Bool :=
  (match u.title with
   | some (some s) => decide (1 ≤ s.length ∧ s.length ≤ 200)
   | _ => true) &&
  (match u.description with
   | some (some s) => decide (s.length ≤ 1000)
   | _ => true)

/--
`existing_task.model_copy(update={**update_data, "updated_at": now})` where
`update_data = task_update.model_dump(exclude_unset=True)`: every field key
present in the body (including those explicitly set to `null`) overwrites
the stored field, every absent key leaves it untouched; `model_copy`
performs no validation.
-/
def applyUpdate (t : Task) (u : TaskUpdate) (now : Nat) : Task :=
  { id := t.id
    title := match u.title with | none => t.title | some v => v
    description := match u.description with | none => t.description | some v => v
    status := match u.status with | none => t.status | some v => v
    priority := match u.priority with | none => t.priority | some v => v
    due_date := match u.due_date with | none => t.due_date | some v => v
    created_at := t.created_at
    updated_at := now }

/--
The store `tasks_db: dict[str, Task]`, as its list of values in Python dict
iteration order (insertion order; assigning to an existing key keeps its
position, assigning a fresh key appends).  The dict key always equals the
`id` field of the stored task.
-/
abbrev Store := List Task

/-- `task_id in tasks_db`. -/
def dbContains (db : Store) (id : String) : Bool :=
  db.any (fun t => t.id == id)

/-- `tasks_db[task_id]` as a lookup (`none` when the key is absent). -/
def dbGet (db : Store) (id : String) : Option Task :=
  db.find? (fun t => t.id == id)

/-- `tasks_db[task_id] = t`: replace in place if the key exists, else append. -/
def dbSet (db : Store) (id : String) (t : Task) : Store :=
  if dbContains db id then db.map (fun x => if x.id == id then t else x)
  else db ++ [t]

/-- `tasks_db.pop(task_id)` (store part; the key is present in all uses). -/
def dbPop (db : Store) (id : String) : Store :=
  db.filter (fun t => !(t.id == id))

/-- A single-quote character, used in response message strings. -/
def sq : String := String.singleton (Char.ofNat 39)

/-- The 404 detail string `f"Task with ID {task_id} not found"` with the id quoted. -/
def notFoundDetail (id : String) : String :=
  "Task with ID " ++ sq ++ id ++ sq ++ " not found"

/-- Python `str(...)` of an optional string (`None` prints as "None"). -/
def pyStr : Option String → String
  | some s => s
  | none => "None"

/-- Python `s.lower()` (ASCII case folding suffices for this model). -/
def lowerStr (s : String) : String := String.mk (s.data.map Char.toLower)

/-- Python substring test `needle in hay` on lists of characters. -/
def containsSub : List Char → List Char → Bool
  | [], needle => needle.isPrefixOf []
  | c :: rest, needle => needle.isPrefixOf (c :: rest) || containsSub rest needle

/-- Python substring test `needle in hay` on strings. -/
def strContains (hay needle : String) : Bool := containsSub hay.data needle.data

/--
The search condition of the list-comprehension filter in `get_tasks`, given
`search_lower` and the title string and description of a task:
`search_lower in title.lower() or (description and search_lower in description.lower())`.
-/
def searchKeep (sl : String) (ti : String) (desc : Option String) : Bool :=
  strContains (lowerStr ti) sl ||
    (match desc with
     | some d => !(d == "") && strContains (lowerStr d) sl
     | none => false)

/--
The search filter of `get_tasks`.  Evaluating `t.title.lower()` when the
runtime value of `title` is `None` raises `AttributeError` (an unhandled
500 error), modelled by `none`.
-/
def searchFilterList (sl : String) : List Task → Option (List Task)
  | [] => some []
  | t :: ts =>
    match t.title with
    | none => none
    | some ti =>
      match searchFilterList sl ts with
      | none => none
      | some r => some (if searchKeep sl ti t.description then t :: r else r)

/--
Responses observable from the endpoints used by the claims.  Constant parts
of the source responses (the `success` flags, `"healthy"`, the version
string) are left implicit in the constructors.
-/
inductive Response
  | listResp (count : Nat) (data : List Task)
  | taskResp (message : String) (data : Task)
  | deleteResp (message : String) (deleted_id : String)
  | statsResp (total_tasks : Nat) (by_status : List (String × Nat)) (by_priority : List (String × Nat))
  | healthResp (timestamp : Nat) (total_tasks : Nat)
  | notFound (detail : String)
  | validationError
  | serverError
deriving DecidableEq

/--
`if status: filtered_tasks = [t for t in filtered_tasks if t.status == status]`
(an enum member is always truthy, so only `None` skips the filter).
-/
def statusFiltered (db : Store) (status : Option TaskStatus) : Store :=
  match status with
  | some s => db.filter (fun t => t.status == some s)
  | none => db

/-- `if priority: filtered_tasks = [t for t in filtered_tasks if t.priority == priority]`. -/
def priorityFiltered (db : Store) (priority : Option TaskPriority) : Store :=
  match priority with
  | some p => db.filter (fun t => t.priority == some p)
  | none => db

/--
`if search: ...` — the empty string is falsy in Python, so `search=""` skips
the filter exactly like an absent parameter; otherwise the comprehension
with `search_lower = search.lower()` runs (`none` = it raises).
-/
def searchFiltered (db : Store) (search : Option String) : Option Store :=
  match search with
  | none => some db
  | some s => if s == "" then some db else searchFilterList (lowerStr s) db

/--
`GET /api/tasks` (`get_tasks` in src/main.py): FastAPI first validates the
query parameters (`limit` is `Query(100, ge=1, le=100)`), then the handler
filters by status, priority and search in that order and slices
`filtered_tasks[offset : offset + limit]`; the reported `count` is
`len(paginated_tasks)`.
-/
def get_tasks (db : Store) (status : Option TaskStatus) (priority : Option TaskPriority)
    (search : Option String) (limit offset : Nat) : Response :=
  if limit < 1 || 100 < limit then Response.validationError
  else
    match searchFiltered (priorityFiltered (statusFiltered db status) priority) search with
    | none => Response.serverError
    | some filtered =>
      Response.listResp ((filtered.take (offset + limit)).drop offset).length
        ((filtered.take (offset + limit)).drop offset)

/-- `GET /api/stats` (`get_statistics` in src/main.py). -/
def get_statistics (db : Store) : Response :=
  Response.statsResp db.length
    (allStatuses.map (fun s => (statusValue s, (db.filter (fun t => t.status == some s)).length)))
    (allPriorities.map (fun p => (priorityValue p, (db.filter (fun t => t.priority == some p)).length)))

/--
One request to the API.  `freshId` stands for the generated
`f"task-{uuid.uuid4().hex[:8]}"` and `now` for `datetime.now()`.
-/
inductive Request
  | list (status : Option TaskStatus) (priority : Option TaskPriority)
      (search : Option String) (limit offset : Nat)
  | getOne (task_id : String)
  | create (payload : TaskCreatePayload) (freshId : String) (now : Nat)
  | update (task_id : String) (payload : TaskUpdate) (now : Nat)
  | delete (task_id : String)
  | stats
  | health (now : Nat)

/--
The request handlers of src/main.py as one step function on the store.
Body validation (`none` from `parseTaskCreate`, `TaskUpdate.isValid`)
happens before the handler body runs, as in FastAPI.
-/
def handle (db : Store) : Request → Store × Response
  | Request.list st pr se li off => (db, get_tasks db st pr se li off)
  | Request.getOne id =>
    match dbGet db id with
    | none => (db, Response.notFound (notFoundDetail id))
    | some t => (db, Response.taskResp "Task retrieved successfully" t)
  | Request.create p freshId now =>
    match parseTaskCreate p with
    | none => (db, Response.validationError)
    | some c =>
      let new_task : Task :=
        { id := freshId, title := some c.title, description := c.description,
          status := some c.status, priority := some c.priority,
          due_date := c.due_date, created_at := now, updated_at := now }
      (dbSet db freshId new_task, Response.taskResp "Task created successfully" new_task)
  | Request.update id u now =>
    if !u.isValid then (db, Response.validationError)
    else
      match dbGet db id with
      | none => (db, Response.notFound (notFoundDetail id))
      | some existing =>
        let updated := applyUpdate existing u now
        (dbSet db id updated, Response.taskResp "Task updated successfully" updated)
  | Request.delete id =>
    match dbGet db id with
    | none => (db, Response.notFound (notFoundDetail id))
    | some t =>
      (dbPop db id,
       Response.deleteResp ("Task " ++ sq ++ pyStr t.title ++ sq ++ " deleted successfully") id)
  | Request.stats => (db, get_statistics db)
  | Request.health now => (db, Response.healthResp now db.length)

/-- Seed task `task-001` from src/main.py. -/
def seedTask1 : Task :=
  { id := "task-001", title := some "Setup Development Environment",
    description := some "Install Python, FastAPI, and configure IDE",
    status := some TaskStatus.completed, priority := some TaskPriority.high,
    due_date := some 151000, created_at := 100900, updated_at := 141530 }

/-- Seed task `task-002` from src/main.py. -/
def seedTask2 : Task :=
  { id := "task-002", title := some "Create API Endpoints",
    description := some "Implement CRUD operations for task management",
    status := some TaskStatus.in_progress, priority := some TaskPriority.high,
    due_date := some 201800, created_at := 121000, updated_at := 131100 }

/-- Seed task `task-003` from src/main.py. -/
def seedTask3 : Task :=
  { id := "task-003", title := some "Write Unit Tests",
    description := some "Create comprehensive test suite using pytest",
    status := some TaskStatus.pending, priority := some TaskPriority.medium,
    due_date := some 251700, created_at := 130800, updated_at := 130800 }

/-- The store right after startup (`sample_tasks` inserted in order). -/
def seedStore : Store := [seedTask1, seedTask2, seedTask3]

/-- Store states reachable from startup by any sequence of requests. -/
inductive Reachable : Store → Prop
  | seed : Reachable seedStore
  | step (db : Store) (r : Request) (h : Reachable db) : Reachable (handle db r).1

/--
The page described by section 4.2 of the spec: filter by exact status
match, then exact priority match, then case-insensitive search over title
or description (absent description never matches), all conjunctively and
in that order, then skip `offset` items and take up to `limit` items.
-/
def specKeepStatus (qs : Option TaskStatus) (t : Task) : Bool :=
  match qs with
  | none => true
  | some s => t.status == some s

/-- Spec 4.2 step 2: exact priority match when the filter is provided. -/
def specKeepPriority (qp : Option TaskPriority) (t : Task) : Bool :=
  match qp with
  | none => true
  | some p => t.priority == some p

/--
Spec 4.2 step 3: case-insensitive substring match of the search string
against title or description; an absent description never matches.
-/
def specMatchesSearch (x : String) (t : Task) : Bool :=
  (match t.title with
   | some ti => strContains (lowerStr ti) (lowerStr x)
   | none => false) ||
  (match t.description with
   | some d => strContains (lowerStr d) (lowerStr x)
   | none => false)

/-- Spec 4.2 step 3 as an optional filter. -/
def specKeepSearch (qx : Option String) (t : Task) : Bool :=
  match qx with
  | none => true
  | some x => specMatchesSearch x t

/-- The page of spec section 4.2: filters in order, then offset/limit slice. -/
def specPage (db : Store) (qs : Option TaskStatus) (qp : Option TaskPriority)
    (qx : Option String) (limit offset : Nat) : List Task :=
  ((((db.filter (specKeepStatus qs)).filter (specKeepPriority qp)).filter
      (specKeepSearch qx)).drop offset).take limit

/-- Every runtime task in the store conforms to the declared `title : str`. -/
abbrev TitlesPresent (db : Store) : Prop := ∀ t ∈ db, t.title ≠ none

/--
The Task field constraints of the data model (spec section 3 and the
pydantic `Field` declarations): `title` a string of 1-200 chars,
`description` absent or at most 1000 chars, `status` and `priority` present
enum values, and `created_at ≤ updated_at`.
-/
def taskWF (t : Task) : Bool :=
  (match t.title with
   | some s => decide (1 ≤ s.length ∧ s.length ≤ 200)
   | none => false) &&
  (match t.description with
   | some d => decide (d.length ≤ 1000)
   | none => true) &&
  t.status.isSome && t.priority.isSome && decide (t.created_at ≤ t.updated_at)

/-- The update body `{"title": null}`: pydantic accepts it (`Optional[str]`). -/
def nullTitleUpdate : TaskUpdate :=
  { title := some none, description := none, status := none, priority := none,
    due_date := none }

/-- The update body `{"status": "in-progress"}`. -/
def inProgressUpdate : TaskUpdate :=
  { title := none, description := none,
    status := some (some TaskStatus.in_progress), priority := none, due_date := none }

/-- The update body `{"description": null, "due_date": null}`. -/
def clearOptionalUpdate : TaskUpdate :=
  { title := none, description := some none, status := none, priority := none,
    due_date := some none }

/-- The create body `{"title": "Minimal Task"}`. -/
def minimalCreatePayload : TaskCreatePayload :=
  { title := some "Minimal Task", description := none, status := none,
    priority := none, due_date := none }

/-- The create body `{"description": "No title"}` (title missing). -/
def noTitleCreatePayload : TaskCreatePayload :=
  { title := none, description := some "No title", status := none,
    priority := none, due_date := none }

/-! ### Store lemmas -/

lemma dbGet_eq_id {db : Store} {id : String} {t : Task} (h : dbGet db id = some t) :
    t.id = id := by
  have hp := List.find?_some h
  exact eq_of_beq hp

lemma dbGet_mem {db : Store} {id : String} {t : Task} (h : dbGet db id = some t) :
    t ∈ db :=
  List.mem_of_find?_eq_some h

lemma dbGet_none_iff (db : Store) (id : String) :
    dbGet db id = none ↔ dbContains db id = false := by
  induction db with
  | nil => simp [dbGet, dbContains]
  | cons x xs ih =>
    by_cases hx : (x.id == id) = true
    · simp [dbGet, dbContains, List.find?_cons_of_pos _ hx, hx]
    · rw [Bool.not_eq_true] at hx
      simp only [dbGet, dbContains] at ih ⊢
      rw [List.find?_cons_of_neg _ (by simp [hx]), List.any_cons, hx]
      simp [ih]

lemma find?_map_replace (db : Store) (id : String) (t : Task) (h : t.id = id) :
    (db.map (fun x => if x.id == id then t else x)).find? (fun x => x.id == id) =
      if db.any (fun x => x.id == id) then some t else none := by
  induction db with
  | nil => rfl
  | cons x xs ih =>
    rw [List.map_cons, List.any_cons]
    cases hx : (x.id == id) with
    | true =>
      have ht : (t.id == id) = true := by rw [h]; exact beq_self_eq_true id
      have hstep : (if (true : Bool) = true then t else x) = t := if_pos rfl
      rw [hstep, List.find?_cons_of_pos (p := fun (y : Task) => y.id == id) _ ht, Bool.true_or]
      simp
    | false =>
      have hstep : (if (false : Bool) = true then t else x) = x := if_neg (by simp)
      rw [hstep,
        List.find?_cons_of_neg (p := fun (y : Task) => y.id == id) _
          (by intro he; have he2 : (x.id == id) = true := he; simp [hx] at he2),
        Bool.false_or]
      exact ih

lemma dbGet_dbSet_self (db : Store) (id : String) (t : Task) (h : t.id = id) :
    dbGet (dbSet db id t) id = some t := by
  unfold dbSet
  by_cases hc : dbContains db id = true
  · rw [if_pos hc]
    unfold dbGet
    rw [find?_map_replace db id t h]
    unfold dbContains at hc
    rw [hc]
    simp
  · rw [Bool.not_eq_true] at hc
    rw [if_neg (by simp [hc])]
    unfold dbGet
    rw [List.find?_append]
    have hnone : db.find? (fun x => x.id == id) = none :=
      (dbGet_none_iff db id).mpr hc
    rw [hnone]
    simp [List.find?_cons, h]

lemma mem_dbSet_of_ne {db : Store} {id : String} {t x : Task}
    (hx : x ∈ db) (hne : x.id ≠ id) : x ∈ dbSet db id t := by
  unfold dbSet
  split
  · exact List.mem_map.mpr ⟨x, hx, by simp [hne]⟩
  · exact List.mem_append_left _ hx

lemma dbSet_fresh (db : Store) (id : String) (t : Task)
    (h : dbContains db id = false) : dbSet db id t = db ++ [t] := by
  unfold dbSet
  rw [if_neg (by simp [h])]

lemma ids_dbSet_replace (db : Store) (id : String) (t : Task)
    (ht : t.id = id) (hc : dbContains db id = true) :
    (dbSet db id t).map Task.id = db.map Task.id := by
  unfold dbSet
  rw [if_pos hc, List.map_map]
  refine List.map_congr_left (fun x _ => ?_)
  by_cases hx : x.id = id
  · simp [Function.comp, hx, ht]
  · simp [Function.comp, hx]

lemma nodup_ids_dbSet (db : Store) (id : String) (t : Task)
    (ht : t.id = id) (h : (db.map Task.id).Nodup) :
    ((dbSet db id t).map Task.id).Nodup := by
  by_cases hc : dbContains db id = true
  · rw [ids_dbSet_replace db id t ht hc]
    exact h
  · rw [Bool.not_eq_true] at hc
    rw [dbSet_fresh db id t hc]
    have hid : id ∉ db.map Task.id := by
      intro hmem
      obtain ⟨x, hx, hxid⟩ := List.mem_map.mp hmem
      have hany : db.any (fun y => y.id == id) = true :=
        List.any_eq_true.mpr ⟨x, hx, by simp [hxid]⟩
      rw [dbContains, hany] at hc
      cases hc
    have hID : (db ++ [t]).map Task.id = db.map Task.id ++ [id] := by
      simp [ht]
    rw [hID]
    refine List.Nodup.append h (List.nodup_singleton id) ?_
    intro a ha hb
    rw [List.mem_singleton] at hb
    subst hb
    exact hid ha

lemma nodup_ids_dbPop (db : Store) (id : String)
    (h : (db.map Task.id).Nodup) : ((dbPop db id).map Task.id).Nodup :=
  ((List.filter_sublist db).map Task.id).nodup h

/-! ### Search and filter lemmas -/

lemma data_ne_nil_of_ne_empty {x : String} (h : ¬ x = "") : x.data ≠ [] := by
  intro hd
  apply h
  apply String.ext
  rw [hd]

lemma containsSub_nil_needle (hay : List Char) : containsSub hay [] = true := by
  cases hay with
  | nil => rfl
  | cons c rest => rfl

lemma strContains_empty_needle (hay : String) : strContains hay "" = true :=
  containsSub_nil_needle hay.data

lemma strContains_empty_hay_of_ne {n : String} (h : n.data ≠ []) :
    strContains "" n = false := by
  show containsSub [] n.data = false
  cases hn : n.data with
  | nil => exact absurd hn h
  | cons c r => rfl

lemma lowerStr_data_ne_nil {x : String} (h : ¬ x = "") : (lowerStr x).data ≠ [] := by
  show x.data.map Char.toLower ≠ []
  simp [data_ne_nil_of_ne_empty h]

lemma lowerStr_empty : lowerStr "" = "" := rfl

lemma searchKeep_eq_specMatch {x : String} (hx : ¬ x = "") (t : Task) {ti : String}
    (hti : t.title = some ti) :
    searchKeep (lowerStr x) ti t.description = specMatchesSearch x t := by
  unfold searchKeep specMatchesSearch
  rw [hti]
  cases hd : t.description with
  | none => rfl
  | some d =>
    by_cases hde : d = ""
    · subst hde
      have hfalse : strContains (lowerStr "") (lowerStr x) = false := by
        rw [lowerStr_empty]
        exact strContains_empty_hay_of_ne (lowerStr_data_ne_nil hx)
      simp [hfalse]
    · have hdb : (d == "") = false := by simp [hde]
      simp [hdb]

lemma searchFilterList_eq_filter (sl : String) (l : List Task)
    (h : ∀ t ∈ l, t.title ≠ none) :
    searchFilterList sl l = some (l.filter (fun t =>
      match t.title with
      | some ti => searchKeep sl ti t.description
      | none => false)) := by
  induction l with
  | nil => rfl
  | cons t ts ih =>
    have ht : t.title ≠ none := h t (List.mem_cons_self t ts)
    obtain ⟨ti, hti⟩ : ∃ ti, t.title = some ti := by
      cases hx : t.title with
      | none => exact absurd hx ht
      | some v => exact ⟨v, rfl⟩
    have hts : ∀ x ∈ ts, x.title ≠ none := fun x hx => h x (List.mem_cons_of_mem t hx)
    rw [searchFilterList, hti, ih hts, List.filter_cons, hti]

lemma statusFiltered_eq (db : Store) (qs : Option TaskStatus) :
    statusFiltered db qs = db.filter (specKeepStatus qs) := by
  cases qs with
  | none => exact (List.filter_true db).symm
  | some s => rfl

lemma priorityFiltered_eq (db : Store) (qp : Option TaskPriority) :
    priorityFiltered db qp = db.filter (specKeepPriority qp) := by
  cases qp with
  | none => exact (List.filter_true db).symm
  | some p => rfl

lemma searchFiltered_eq (db : Store) (qx : Option String)
    (hw : ∀ t ∈ db, t.title ≠ none) :
    searchFiltered db qx = some (db.filter (specKeepSearch qx)) := by
  cases qx with
  | none => exact congrArg some (List.filter_true db).symm
  | some x =>
    by_cases hx : x = ""
    · subst hx
      show some db = _
      refine congrArg some ?_
      refine (List.filter_eq_self.mpr (fun t ht => ?_)).symm
      obtain ⟨ti, hti⟩ : ∃ ti, t.title = some ti := by
        cases hxx : t.title with
        | none => exact absurd hxx (hw t ht)
        | some v => exact ⟨v, rfl⟩
      show specMatchesSearch "" t = true
      unfold specMatchesSearch
      rw [lowerStr_empty]
      simp [hti, strContains_empty_needle]
    · show (if (x == "") = true then some db else searchFilterList (lowerStr x) db) = _
      rw [if_neg (by simp [hx])]
      rw [searchFilterList_eq_filter (lowerStr x) db hw]
      refine congrArg some (List.filter_congr (fun t ht => ?_))
      obtain ⟨ti, hti⟩ : ∃ ti, t.title = some ti := by
        cases hxx : t.title with
        | none => exact absurd hxx (hw t ht)
        | some v => exact ⟨v, rfl⟩
      rw [hti]
      exact searchKeep_eq_specMatch hx t hti

lemma slice_eq (l : List Task) (limit offset : Nat) :
    (l.take (offset + limit)).drop offset = (l.drop offset).take limit := by
  rw [List.drop_take]
  congr 1
  omega

lemma titles_present_filter (db : Store) (p : Task → Bool)
    (hw : ∀ t ∈ db, t.title ≠ none) :
    ∀ t ∈ db.filter p, t.title ≠ none :=
  fun t ht => hw t (List.mem_filter.mp ht).1

lemma opt_exists {α : Type} {o : Option α} (h : o ≠ none) : ∃ a, o = some a := by
  cases o with
  | none => exact absurd rfl h
  | some a => exact ⟨a, rfl⟩

/-! ### Statistics lemmas -/

lemma sum_map_add {β : Type} (vs : List β) (a b : β → Nat) :
    (vs.map (fun v => a v + b v)).sum = (vs.map a).sum + (vs.map b).sum := by
  induction vs with
  | nil => rfl
  | cons v vs ih =>
    simp only [List.map_cons, List.sum_cons, ih]
    omega

lemma sum_filter_lengths {α β : Type} (l : List α) (f : α → β → Bool) (vs : List β)
    (h : ∀ x ∈ l, (vs.map (fun v => if f x v then 1 else 0)).sum = 1) :
    (vs.map (fun v => (l.filter (fun x => f x v)).length)).sum = l.length := by
  induction l with
  | nil => simp
  | cons x xs ih =>
    have hx := h x (List.mem_cons_self x xs)
    have hxs := fun y hy => h y (List.mem_cons_of_mem x hy)
    have hlen : ∀ v, ((x :: xs).filter (fun y => f y v)).length
        = (if f x v then 1 else 0) + (xs.filter (fun y => f y v)).length := by
      intro v
      rw [List.filter_cons]
      cases hf : f x v with
      | true =>
        simp [hf]
        omega
      | false => simp [hf]
    calc (vs.map (fun v => ((x :: xs).filter (fun y => f y v)).length)).sum
        = (vs.map (fun v =>
            (if f x v then 1 else 0) + (xs.filter (fun y => f y v)).length)).sum := by
          exact congrArg List.sum (List.map_congr_left (fun v _ => hlen v))
      _ = (vs.map (fun v => if f x v then 1 else 0)).sum +
            (vs.map (fun v => (xs.filter (fun y => f y v)).length)).sum :=
          sum_map_add vs _ _
      _ = 1 + xs.length := by rw [hx, ih hxs]
      _ = (x :: xs).length := by simp [Nat.add_comm]

lemma status_one_hot (t : Task) (s0 : TaskStatus) (h : t.status = some s0) :
    (allStatuses.map (fun s => if t.status == some s then 1 else 0)).sum = 1 := by
  rw [show (fun s => if t.status == some s then (1 : Nat) else 0)
      = (fun s => if some s0 == some s then (1 : Nat) else 0) from by rw [h]]
  cases s0 <;> decide

lemma priority_one_hot (t : Task) (p0 : TaskPriority) (h : t.priority = some p0) :
    (allPriorities.map (fun p => if t.priority == some p then 1 else 0)).sum = 1 := by
  rw [show (fun p => if t.priority == some p then (1 : Nat) else 0)
      = (fun p => if some p0 == some p then (1 : Nat) else 0) from by rw [h]]
  cases p0 <;> decide

lemma by_status_sum (db : Store) (h : ∀ t ∈ db, t.status ≠ none) :
    (allStatuses.map
      (fun s => (db.filter (fun t => t.status == some s)).length)).sum = db.length := by
  refine sum_filter_lengths db (fun t s => t.status == some s) allStatuses (fun t ht => ?_)
  obtain ⟨s0, hs0⟩ := opt_exists (h t ht)
  exact status_one_hot t s0 hs0

lemma by_priority_sum (db : Store) (h : ∀ t ∈ db, t.priority ≠ none) :
    (allPriorities.map
      (fun p => (db.filter (fun t => t.priority == some p)).length)).sum = db.length := by
  refine sum_filter_lengths db (fun t p => t.priority == some p) allPriorities
    (fun t ht => ?_)
  obtain ⟨p0, hp0⟩ := opt_exists (h t ht)
  exact priority_one_hot t p0 hp0

/-! ### Handler-shape lemmas -/

lemma handle_update_found {db : Store} {id : String} {u : TaskUpdate} (now : Nat)
    {old : Task} (hv : u.isValid = true) (hg : dbGet db id = some old) :
    handle db (Request.update id u now) =
      (dbSet db id (applyUpdate old u now),
       Response.taskResp "Task updated successfully" (applyUpdate old u now)) := by
  simp [handle, hv, hg]

lemma handle_getOne_found {db : Store} {id : String} {t : Task}
    (hg : dbGet db id = some t) :
    handle db (Request.getOne id) =
      (db, Response.taskResp "Task retrieved successfully" t) := by
  simp [handle, hg]

lemma reachable_nodup {db : Store} (h : Reachable db) : (db.map Task.id).Nodup := by
  induction h with
  | seed => decide
  | step db r _ ih =>
    cases r with
    | list st pr se li off => exact ih
    | getOne id =>
      cases hg : dbGet db id with
      | none =>
        have he : (handle db (Request.getOne id)).1 = db := by simp [handle, hg]
        rw [he]
        exact ih
      | some t =>
        have he : (handle db (Request.getOne id)).1 = db := by simp [handle, hg]
        rw [he]
        exact ih
    | create p fid now =>
      cases hp : parseTaskCreate p with
      | none =>
        have he : (handle db (Request.create p fid now)).1 = db := by simp [handle, hp]
        rw [he]
        exact ih
      | some c =>
        have he : (handle db (Request.create p fid now)).1 = dbSet db fid
            { id := fid, title := some c.title, description := c.description,
              status := some c.status, priority := some c.priority,
              due_date := c.due_date, created_at := now, updated_at := now } := by
          simp [handle, hp]
        rw [he]
        exact nodup_ids_dbSet db fid _ rfl ih
    | update id u now =>
      by_cases hv : u.isValid = true
      · cases hg : dbGet db id with
        | none =>
          have he : (handle db (Request.update id u now)).1 = db := by
            simp [handle, hv, hg]
          rw [he]
          exact ih
        | some ex =>
          have he : (handle db (Request.update id u now)).1 =
              dbSet db id (applyUpdate ex u now) := by
            rw [handle_update_found now hv hg]
          rw [he]
          have hid : ex.id = id := dbGet_eq_id hg
          exact nodup_ids_dbSet db id _ hid ih
      · have hvf : u.isValid = false := by
          rwa [Bool.not_eq_true] at hv
        have he : (handle db (Request.update id u now)).1 = db := by
          simp [handle, hvf]
        rw [he]
        exact ih
    | delete id =>
      cases hg : dbGet db id with
      | none =>
        have he : (handle db (Request.delete id)).1 = db := by simp [handle, hg]
        rw [he]
        exact ih
      | some t =>
        have he : (handle db (Request.delete id)).1 = dbPop db id := by
          simp [handle, hg]
        rw [he]
        exact nodup_ids_dbPop db id ih
    | stats => exact ih
    | health now => exact ih

/-! ### Create-validation lemmas -/

lemma parseStatus_none_iff (s : String) :
    parseStatus s = none ↔
      ¬(s = "pending" ∨ s = "in-progress" ∨ s = "completed" ∨ s = "cancelled") := by
  unfold parseStatus
  split_ifs with h1 h2 h3 h4 <;> simp_all

lemma parsePriority_none_iff (s : String) :
    parsePriority s = none ↔
      ¬(s = "low" ∨ s = "medium" ∨ s = "high" ∨ s = "urgent") := by
  unfold parsePriority
  split_ifs with h1 h2 h3 h4 <;> simp_all

lemma checkTitle_none_iff (t : Option String) :
    checkTitle t = none ↔
      t = none ∨ ∃ s, t = some s ∧ (s.length = 0 ∨ 200 < s.length) := by
  cases t with
  | none => simp [checkTitle]
  | some s =>
    simp only [checkTitle]
    split_ifs with h
    · simp_all
      omega
    · simp_all
      omega

lemma checkDescription_none_iff (d : Option String) :
    checkDescription d = none ↔ ∃ s, d = some s ∧ 1000 < s.length := by
  cases d with
  | none => simp [checkDescription]
  | some s =>
    simp only [checkDescription]
    split_ifs with h
    · simp_all
    · simp_all

lemma checkStatusField_none_iff (s : Option String) :
    checkStatusField s = none ↔
      ∃ v, s = some v ∧
        ¬(v = "pending" ∨ v = "in-progress" ∨ v = "completed" ∨ v = "cancelled") := by
  cases s with
  | none => simp [checkStatusField]
  | some v => simp [checkStatusField, parseStatus_none_iff]

lemma checkPriorityField_none_iff (s : Option String) :
    checkPriorityField s = none ↔
      ∃ v, s = some v ∧ ¬(v = "low" ∨ v = "medium" ∨ v = "high" ∨ v = "urgent") := by
  cases s with
  | none => simp [checkPriorityField]
  | some v => simp [checkPriorityField, parsePriority_none_iff]

lemma parseTaskCreate_none_iff_checks (p : TaskCreatePayload) :
    parseTaskCreate p = none ↔
      checkTitle p.title = none ∨ checkDescription p.description = none ∨
      checkStatusField p.status = none ∨ checkPriorityField p.priority = none := by
  unfold parseTaskCreate
  cases checkTitle p.title <;> cases checkDescription p.description <;>
    cases checkStatusField p.status <;> cases checkPriorityField p.priority <;> simp

lemma get_tasks_spec (db : Store) (qs : Option TaskStatus) (qp : Option TaskPriority)
    (qx : Option String) (limit offset : Nat)
    (h1 : 1 ≤ limit) (h2 : limit ≤ 100) (hw : TitlesPresent db) :
    get_tasks db qs qp qx limit offset =
      Response.listResp (specPage db qs qp qx limit offset).length
        (specPage db qs qp qx limit offset) := by
  have hcond : ¬ ((limit < 1 || 100 < limit) = true) := by
    simp
    omega
  unfold get_tasks
  rw [if_neg hcond, statusFiltered_eq, priorityFiltered_eq,
    searchFiltered_eq _ qx (titles_present_filter _ _ (titles_present_filter _ _ hw))]
  unfold specPage
  dsimp only
  rw [slice_eq]

/-! ### Claim theorems -/

/--
Claim C1: for every store state and every combination of optional status,
priority and search filters with limit in 1-100 and any offset, the list
operation returns exactly the page obtained by filtering the store by
status, then priority, then search, conjunctively in that order, then
skipping `offset` items and taking up to `limit` items; the returned count
equals the length of that returned page.  (Stated for stores whose tasks
carry a title string, as the declared data model requires.)
-/
theorem claim_C1_list_returns_filtered_page (db : Store) (qs : Option TaskStatus)
    (qp : Option TaskPriority) (qx : Option String) (limit offset : Nat)
    (h1 : 1 ≤ limit) (h2 : limit ≤ 100) (hw : TitlesPresent db) :
    handle db (Request.list qs qp qx limit offset) =
      (db, Response.listResp (specPage db qs qp qx limit offset).length
        (specPage db qs qp qx limit offset)) := by
  show (db, get_tasks db qs qp qx limit offset) = _
  rw [get_tasks_spec db qs qp qx limit offset h1 h2 hw]

/-- Concrete instance of C1 on the seed store with a search filter. -/
theorem claim_C1_witness :
    1 ≤ 100 ∧ 100 ≤ 100 ∧ TitlesPresent seedStore ∧
    handle seedStore (Request.list none none (some "API") 100 1) =
      (seedStore,
       Response.listResp (specPage seedStore none none (some "API") 100 1).length
         (specPage seedStore none none (some "API") 100 1)) :=
  ⟨by decide, by decide, by decide,
   claim_C1_list_returns_filtered_page seedStore none none (some "API") 100 1
     (by decide) (by decide) (by decide)⟩

/--
Claim C2: the claim states that every reachable store state satisfies the
Task field constraints and `created_at ≤ updated_at`, and in particular
that no update can persist a violating task.  The code violates this: the
update body with an explicit JSON null title passes pydantic validation of
`TaskUpdate` (its fields are all `Optional`), survives
`model_dump(exclude_unset=True)`, and `model_copy` stores `None` into the
required `title` field without validation.  This theorem evaluates the
code at that failing input: after updating seed task `task-001` with
`nullTitleUpdate`, the reachable store holds a task whose title is `None`,
violating the 1-200-character title constraint (`taskWF` is false).
-/
theorem claim_C2_null_title_update_persists_invalid_task :
    TaskUpdate.isValid nullTitleUpdate = true ∧
    Reachable (handle seedStore (Request.update "task-001" nullTitleUpdate 150000)).1 ∧
    dbGet (handle seedStore (Request.update "task-001" nullTitleUpdate 150000)).1
        "task-001" =
      some { id := "task-001", title := none,
             description := some "Install Python, FastAPI, and configure IDE",
             status := some TaskStatus.completed, priority := some TaskPriority.high,
             due_date := some 151000, created_at := 100900, updated_at := 150000 } ∧
    taskWF { id := "task-001", title := none,
             description := some "Install Python, FastAPI, and configure IDE",
             status := some TaskStatus.completed, priority := some TaskPriority.high,
             due_date := some 151000, created_at := 100900, updated_at := 150000 } = false :=
  ⟨rfl, Reachable.step seedStore (Request.update "task-001" nullTitleUpdate 150000)
      Reachable.seed, by decide, rfl⟩

/--
Claim C4: for every id absent from the store, get-one, update (with a body
that passes validation) and delete each fail with a 404 whose detail is
exactly the string `Task with ID <id> not found` with the id in single
quotes, the three details coincide, and the store is left unchanged.
-/
theorem claim_C4_missing_id_not_found (db : Store) (id : String) (u : TaskUpdate)
    (now : Nat) (h : dbGet db id = none) :
    handle db (Request.getOne id) = (db, Response.notFound (notFoundDetail id)) ∧
    (u.isValid = true →
      handle db (Request.update id u now) = (db, Response.notFound (notFoundDetail id))) ∧
    handle db (Request.delete id) = (db, Response.notFound (notFoundDetail id)) ∧
    notFoundDetail id = "Task with ID " ++ sq ++ id ++ sq ++ " not found" :=
  ⟨by simp [handle, h], fun hv => by simp [handle, hv, h], by simp [handle, h], rfl⟩

/-- Concrete instance of C4 on the seed store. -/
theorem claim_C4_witness :
    dbGet seedStore "non-existent-id" = none ∧
    handle seedStore (Request.getOne "non-existent-id") =
      (seedStore, Response.notFound (notFoundDetail "non-existent-id")) :=
  ⟨by decide,
   (claim_C4_missing_id_not_found seedStore "non-existent-id"
      { title := none, description := none, status := none, priority := none,
        due_date := none } 0 (by decide)).1⟩

/--
Claim C10: the read endpoints (list with any parameters, get-one whether
found or not, statistics, health) never mutate the store.
-/
theorem claim_C10_reads_do_not_mutate (db : Store) (qs : Option TaskStatus)
    (qp : Option TaskPriority) (qx : Option String) (limit offset : Nat)
    (id : String) (now : Nat) :
    (handle db (Request.list qs qp qx limit offset)).1 = db ∧
    (handle db (Request.getOne id)).1 = db ∧
    (handle db Request.stats).1 = db ∧
    (handle db (Request.health now)).1 = db := by
  refine ⟨rfl, ?_, rfl, rfl⟩
  cases hg : dbGet db id with
  | none => simp [handle, hg]
  | some t => simp [handle, hg]

/--
Claim C3: a successful update stores exactly `applyUpdate old u now`: the
id and `created_at` are unchanged, `updated_at` becomes `now` (hence at
least its prior value when the clock does not go backwards), every field
key absent from the body keeps its stored value, every supplied field takes
the supplied value, all other records are untouched, and a subsequent read
of the same id returns the updated record.
-/
theorem claim_C3_update_changes_exactly_supplied_fields (db : Store) (id : String)
    (u : TaskUpdate) (now : Nat) (old : Task)
    (hv : u.isValid = true) (hg : dbGet db id = some old) :
    dbGet (handle db (Request.update id u now)).1 id = some (applyUpdate old u now) ∧
    (applyUpdate old u now).id = old.id ∧
    (applyUpdate old u now).created_at = old.created_at ∧
    (applyUpdate old u now).updated_at = now ∧
    (old.updated_at ≤ now → old.updated_at ≤ (applyUpdate old u now).updated_at) ∧
    (u.title = none → (applyUpdate old u now).title = old.title) ∧
    (u.description = none → (applyUpdate old u now).description = old.description) ∧
    (u.status = none → (applyUpdate old u now).status = old.status) ∧
    (u.priority = none → (applyUpdate old u now).priority = old.priority) ∧
    (u.due_date = none → (applyUpdate old u now).due_date = old.due_date) ∧
    (∀ v, u.title = some v → (applyUpdate old u now).title = v) ∧
    (∀ v, u.description = some v → (applyUpdate old u now).description = v) ∧
    (∀ v, u.status = some v → (applyUpdate old u now).status = v) ∧
    (∀ v, u.priority = some v → (applyUpdate old u now).priority = v) ∧
    (∀ v, u.due_date = some v → (applyUpdate old u now).due_date = v) ∧
    (∀ x ∈ db, x.id ≠ id → x ∈ (handle db (Request.update id u now)).1) ∧
    (handle (handle db (Request.update id u now)).1 (Request.getOne id)).2 =
      Response.taskResp "Task retrieved successfully" (applyUpdate old u now) := by
  have hid : old.id = id := dbGet_eq_id hg
  have hstep := handle_update_found now hv hg
  have hfst : (handle db (Request.update id u now)).1 =
      dbSet db id (applyUpdate old u now) := by rw [hstep]
  have hnewid : (applyUpdate old u now).id = id := hid
  have hget : dbGet (handle db (Request.update id u now)).1 id =
      some (applyUpdate old u now) := by
    rw [hfst]
    exact dbGet_dbSet_self db id _ hnewid
  refine ⟨hget, rfl, rfl, rfl, fun h => h,
    fun h => by simp [applyUpdate, h],
    fun h => by simp [applyUpdate, h],
    fun h => by simp [applyUpdate, h],
    fun h => by simp [applyUpdate, h],
    fun h => by simp [applyUpdate, h],
    fun v h => by simp [applyUpdate, h],
    fun v h => by simp [applyUpdate, h],
    fun v h => by simp [applyUpdate, h],
    fun v h => by simp [applyUpdate, h],
    fun v h => by simp [applyUpdate, h],
    fun x hx hne => by rw [hfst]; exact mem_dbSet_of_ne hx hne,
    by rw [handle_getOne_found hget]⟩

/-- Concrete instance of C3: updating the status of seed task `task-001`. -/
theorem claim_C3_witness :
    TaskUpdate.isValid inProgressUpdate = true ∧
    dbGet seedStore "task-001" = some seedTask1 ∧
    dbGet (handle seedStore (Request.update "task-001" inProgressUpdate 777777)).1
        "task-001" = some (applyUpdate seedTask1 inProgressUpdate 777777) :=
  ⟨by decide, by decide,
   (claim_C3_update_changes_exactly_supplied_fields seedStore "task-001"
      inProgressUpdate 777777 seedTask1 (by decide) (by decide)).1⟩

/--
Claim C5: an update body that explicitly supplies null for an optional
field (description, due_date) clears that field to absent in the stored
record, whereas a body that omits the field keeps the existing value:
explicit-null-clears is distinguishable from field-omitted-keeps.
-/
theorem claim_C5_explicit_null_clears_omitted_keeps (db : Store) (id : String)
    (u : TaskUpdate) (now : Nat) (old : Task)
    (hv : u.isValid = true) (hg : dbGet db id = some old) :
    dbGet (handle db (Request.update id u now)).1 id = some (applyUpdate old u now) ∧
    (u.description = some none → (applyUpdate old u now).description = none) ∧
    (u.description = none → (applyUpdate old u now).description = old.description) ∧
    (u.due_date = some none → (applyUpdate old u now).due_date = none) ∧
    (u.due_date = none → (applyUpdate old u now).due_date = old.due_date) := by
  have hid : old.id = id := dbGet_eq_id hg
  have hstep := handle_update_found now hv hg
  have hget : dbGet (handle db (Request.update id u now)).1 id =
      some (applyUpdate old u now) := by
    rw [show (handle db (Request.update id u now)).1 =
        dbSet db id (applyUpdate old u now) from by rw [hstep]]
    exact dbGet_dbSet_self db id _ hid
  refine ⟨hget,
    fun h => by simp [applyUpdate, h],
    fun h => by simp [applyUpdate, h],
    fun h => by simp [applyUpdate, h],
    fun h => by simp [applyUpdate, h]⟩

/-- Concrete instance of C5: clearing description and due date of `task-001`. -/
theorem claim_C5_witness :
    TaskUpdate.isValid clearOptionalUpdate = true ∧
    dbGet seedStore "task-001" = some seedTask1 ∧
    dbGet (handle seedStore (Request.update "task-001" clearOptionalUpdate 888888)).1
        "task-001" = some (applyUpdate seedTask1 clearOptionalUpdate 888888) ∧
    (applyUpdate seedTask1 clearOptionalUpdate 888888).description = none :=
  ⟨by decide, by decide,
   (claim_C5_explicit_null_clears_omitted_keeps seedStore "task-001"
      clearOptionalUpdate 888888 seedTask1 (by decide) (by decide)).1,
   (claim_C5_explicit_null_clears_omitted_keeps seedStore "task-001"
      clearOptionalUpdate 888888 seedTask1 (by decide) (by decide)).2.1 rfl⟩

/--
Claim C6: task ids are unique across the store in every reachable state,
and a create whose generated id is not already present (as `insert`
requires) strictly increases the store size by one and never replaces or
removes an existing record.
-/
theorem claim_C6_ids_unique_create_fresh_appends :
    (∀ db, Reachable db → (db.map Task.id).Nodup) ∧
    (∀ (db : Store) (p : TaskCreatePayload) (fid : String) (now : Nat) (c : TaskCreate),
      parseTaskCreate p = some c → dbContains db fid = false →
      (handle db (Request.create p fid now)).1.length = db.length + 1 ∧
      ∀ t ∈ db, t ∈ (handle db (Request.create p fid now)).1) := by
  refine ⟨fun db h => reachable_nodup h, ?_⟩
  intro db p fid now c hp hf
  have he : (handle db (Request.create p fid now)).1 = db ++
      [{ id := fid, title := some c.title, description := c.description,
         status := some c.status, priority := some c.priority,
         due_date := c.due_date, created_at := now, updated_at := now }] := by
    simp [handle, hp, dbSet_fresh _ _ _ hf]
  rw [he]
  constructor
  · simp
  · intro t ht
    exact List.mem_append_left _ ht

/-- Concrete instance of C6: seed ids are unique; a fresh create appends. -/
theorem claim_C6_witness :
    (seedStore.map Task.id).Nodup ∧
    parseTaskCreate minimalCreatePayload =
      some { title := "Minimal Task", description := none,
             status := TaskStatus.pending, priority := TaskPriority.medium,
             due_date := none } ∧
    dbContains seedStore "task-9f86d081" = false ∧
    (handle seedStore
        (Request.create minimalCreatePayload "task-9f86d081" 999999)).1.length =
      seedStore.length + 1 :=
  ⟨claim_C6_ids_unique_create_fresh_appends.1 seedStore Reachable.seed,
   by decide, by decide,
   (claim_C6_ids_unique_create_fresh_appends.2 seedStore minimalCreatePayload
      "task-9f86d081" 999999
      { title := "Minimal Task", description := none,
        status := TaskStatus.pending, priority := TaskPriority.medium,
        due_date := none } (by decide) (by decide)).1⟩

/--
Claim C7: every task returned by a list query with a search string X
contains X case-insensitively as a substring of its title or of its
description; a task whose title does not match and whose description is
absent is never included.  (Stated for stores whose tasks carry a title
string, as the declared data model requires.)
-/
theorem claim_C7_search_results_match (db : Store) (qs : Option TaskStatus)
    (qp : Option TaskPriority) (x : String) (limit offset : Nat) (c : Nat)
    (data : List Task) (hw : TitlesPresent db)
    (hr : (handle db (Request.list qs qp (some x) limit offset)).2 =
      Response.listResp c data) :
    ∀ t ∈ data,
      (∃ ti, t.title = some ti ∧ strContains (lowerStr ti) (lowerStr x) = true) ∨
      (∃ d, t.description = some d ∧ strContains (lowerStr d) (lowerStr x) = true) := by
  have h2 : (handle db (Request.list qs qp (some x) limit offset)).2 =
      get_tasks db qs qp (some x) limit offset := rfl
  by_cases hl : 1 ≤ limit ∧ limit ≤ 100
  · have hspec := get_tasks_spec db qs qp (some x) limit offset hl.1 hl.2 hw
    rw [h2, hspec] at hr
    injection hr with hc hd
    subst hd
    intro t ht
    have ht1 : t ∈ ((db.filter (specKeepStatus qs)).filter
        (specKeepPriority qp)).filter (specKeepSearch (some x)) := by
      have hsub1 := List.take_subset limit
        ((((db.filter (specKeepStatus qs)).filter (specKeepPriority qp)).filter
          (specKeepSearch (some x))).drop offset)
      have hsub2 := List.drop_subset offset
        (((db.filter (specKeepStatus qs)).filter (specKeepPriority qp)).filter
          (specKeepSearch (some x)))
      exact hsub2 (hsub1 ht)
    have hmatch : specMatchesSearch x t = true := (List.mem_filter.mp ht1).2
    have hmem : t ∈ db := by
      have ha := (List.mem_filter.mp ht1).1
      have hb := (List.mem_filter.mp ha).1
      exact (List.mem_filter.mp hb).1
    obtain ⟨ti, hti⟩ := opt_exists (hw t hmem)
    unfold specMatchesSearch at hmatch
    simp only [hti] at hmatch
    rw [Bool.or_eq_true] at hmatch
    rcases hmatch with h | h
    · exact Or.inl ⟨ti, hti, h⟩
    · cases hdesc : t.description with
      | none => rw [hdesc] at h; cases h
      | some d =>
        rw [hdesc] at h
        exact Or.inr ⟨d, rfl, h⟩
  · exfalso
    have hverr : get_tasks db qs qp (some x) limit offset =
        Response.validationError := by
      unfold get_tasks
      rw [if_pos (by simp; omega)]
    rw [h2, hverr] at hr
    cases hr

/-- Concrete instance of C7: searching the seed store for "api". -/
theorem claim_C7_witness :
    TitlesPresent seedStore ∧
    (handle seedStore (Request.list none none (some "api") 100 0)).2 =
      Response.listResp 2 [seedTask1, seedTask2] ∧
    seedTask2 ∈ [seedTask1, seedTask2] ∧
    ((∃ ti, seedTask2.title = some ti ∧
        strContains (lowerStr ti) (lowerStr "api") = true) ∨
     (∃ d, seedTask2.description = some d ∧
        strContains (lowerStr d) (lowerStr "api") = true)) :=
  ⟨by decide, by decide, by decide,
   claim_C7_search_results_match seedStore none none "api" 100 0 2
     [seedTask1, seedTask2] (by decide) (by decide) seedTask2 (by decide)⟩

/--
Claim C8: create rejects with a validation error, leaving the store
unchanged, exactly when the payload has title missing, empty or longer
than 200 chars, or description longer than 1000 chars, or status outside
the four status wire values, or priority outside the four priority wire
values; no record is persisted on rejection.
-/
theorem claim_C8_create_rejects_iff_invalid (db : Store) (p : TaskCreatePayload)
    (fid : String) (now : Nat) :
    ((handle db (Request.create p fid now)).2 = Response.validationError ↔
      (p.title = none ∨
       (∃ t, p.title = some t ∧ (t.length = 0 ∨ 200 < t.length)) ∨
       (∃ d, p.description = some d ∧ 1000 < d.length) ∨
       (∃ s, p.status = some s ∧
         ¬(s = "pending" ∨ s = "in-progress" ∨ s = "completed" ∨ s = "cancelled")) ∨
       (∃ s, p.priority = some s ∧
         ¬(s = "low" ∨ s = "medium" ∨ s = "high" ∨ s = "urgent")))) ∧
    ((handle db (Request.create p fid now)).2 = Response.validationError →
      (handle db (Request.create p fid now)).1 = db) := by
  have hiff : parseTaskCreate p = none ↔
      (p.title = none ∨
       (∃ t, p.title = some t ∧ (t.length = 0 ∨ 200 < t.length)) ∨
       (∃ d, p.description = some d ∧ 1000 < d.length) ∨
       (∃ s, p.status = some s ∧
         ¬(s = "pending" ∨ s = "in-progress" ∨ s = "completed" ∨ s = "cancelled")) ∨
       (∃ s, p.priority = some s ∧
         ¬(s = "low" ∨ s = "medium" ∨ s = "high" ∨ s = "urgent"))) := by
    rw [parseTaskCreate_none_iff_checks, checkTitle_none_iff,
      checkDescription_none_iff, checkStatusField_none_iff,
      checkPriorityField_none_iff]
    rw [or_assoc]
  cases hp : parseTaskCreate p with
  | none =>
    have hresp : handle db (Request.create p fid now) =
        (db, Response.validationError) := by
      simp [handle, hp]
    rw [hresp]
    exact ⟨⟨fun _ => hiff.mp hp, fun _ => rfl⟩, fun _ => rfl⟩
  | some c =>
    have hresp : handle db (Request.create p fid now) =
        (dbSet db fid
          { id := fid, title := some c.title, description := c.description,
            status := some c.status, priority := some c.priority,
            due_date := c.due_date, created_at := now, updated_at := now },
         Response.taskResp "Task created successfully"
          { id := fid, title := some c.title, description := c.description,
            status := some c.status, priority := some c.priority,
            due_date := c.due_date, created_at := now, updated_at := now }) := by
      simp [handle, hp]
    rw [hresp]
    constructor
    · constructor
      · intro hfalse
        exact absurd hfalse (by simp)
      · intro hcond
        have hnone := hiff.mpr hcond
        rw [hp] at hnone
        cases hnone
    · intro hfalse
      exact absurd hfalse (by simp)

/-- Concrete instance of C8: a payload with a missing title is rejected. -/
theorem claim_C8_witness :
    noTitleCreatePayload.title = none ∧
    (handle seedStore
        (Request.create noTitleCreatePayload "task-12345678" 444444)).1 = seedStore :=
  ⟨by decide,
   (claim_C8_create_rejects_iff_invalid seedStore noTitleCreatePayload
      "task-12345678" 444444).2 (by decide)⟩

/--
Claim C9: for every store state (whose tasks carry the enum values the
data model requires), the statistics result has total_tasks equal to the
store size, by_status listing exactly the four status wire values as keys
with counts summing to total_tasks, and by_priority listing exactly the
four priority wire values as keys with counts summing to total_tasks.
-/
theorem claim_C9_stats_totals (db : Store)
    (hs : ∀ t ∈ db, t.status ≠ none) (hp : ∀ t ∈ db, t.priority ≠ none) :
    ∃ bs bp, handle db Request.stats = (db, Response.statsResp db.length bs bp) ∧
      bs.map Prod.fst = ["pending", "in-progress", "completed", "cancelled"] ∧
      bp.map Prod.fst = ["low", "medium", "high", "urgent"] ∧
      (bs.map Prod.snd).sum = db.length ∧
      (bp.map Prod.snd).sum = db.length := by
  refine ⟨_, _, rfl, ?_, ?_, ?_, ?_⟩
  · rw [List.map_map]
    rfl
  · rw [List.map_map]
    rfl
  · rw [List.map_map]
    exact by_status_sum db hs
  · rw [List.map_map]
    exact by_priority_sum db hp

/-- Concrete instance of C9 on the seed store. -/
theorem claim_C9_witness :
    (∀ t ∈ seedStore, t.status ≠ none) ∧ (∀ t ∈ seedStore, t.priority ≠ none) ∧
    ∃ bs bp, handle seedStore Request.stats =
        (seedStore, Response.statsResp seedStore.length bs bp) ∧
      bs.map Prod.fst = ["pending", "in-progress", "completed", "cancelled"] ∧
      bp.map Prod.fst = ["low", "medium", "high", "urgent"] ∧
      (bs.map Prod.snd).sum = seedStore.length ∧
      (bp.map Prod.snd).sum = seedStore.length :=
  ⟨by decide, by decide, claim_C9_stats_totals seedStore (by decide) (by decide)⟩

end TaskAPI
